import Mathlib

/-!
Shallow embedding of the two watchlist-dashboard apps of this repository:
the watchlist-file app (`Mimi Watchlist`, `App.tsx` bundled with `watchlist.json`)
and the hard-coded-list app (`Stock Buddy`, `stock-buddy/src/App.tsx`).
JavaScript numbers are modelled as rationals, nullable fields as `Option`,
and `Array.prototype.sort` (stable per ECMA-262) as a stable insertion sort
keyed by the numeric status priority used in the source comparator.
-/

/-- Stable insertion of `x` into `l`, placing `x` before the first element whose
key is not smaller; models the placement a stable comparator sort gives a
later-arriving element among earlier ones. -/
def insertByKey {α : Type} (key : α → Nat) (x : α) : List α → List α
  | [] => [x]
  | y :: ys => if key x ≤ key y then x :: y :: ys else y :: insertByKey key x ys

/-- Stable sort by a natural-number key; models `Array.prototype.sort` with the
comparator `(a, b) => key a - key b` from both apps. -/
def sortByKey {α : Type} (key : α → Nat) : List α → List α
  | [] => []
  | x :: xs => insertByKey key x (sortByKey key xs)

namespace Mimi

/-- Status union type of the watchlist-file app: `'buy' | 'near' | 'watch' | 'alert'`. -/
inductive MStatus where
  | buy
  | near
  | watch
  | alert
deriving DecidableEq, Repr

/-- The `WatchlistStock` interface: one entry of `watchlist.json`. -/
structure WatchlistStock where
  symbol : String
  name : String
  business : String
  buyReason : String
  targetEntry : Option ℚ
  entryNote : String
  holdPeriod : String
  exitStrategy : String
  stopLoss : Option (ℚ ⊕ String)
  invalidIf : Option String
  catalyst : Option String
  source : String
  priority : ℚ
deriving DecidableEq

/-- Fields of one FMP quote object that the app reads:
`quote.symbol`, `quote.price`, `quote.change`, `quote.changesPercentage`. -/
structure RawQuote where
  symbol : String
  price : ℚ
  change : ℚ
  changesPercentage : ℚ
deriving DecidableEq

/-- The `StockData` interface: a watchlist entry enriched with quote data and
the derived status and distance-to-target. -/
structure StockData extends WatchlistStock where
  price : ℚ
  change : ℚ
  changePercent : ℚ
  status : MStatus
  distancePercent : Option ℚ
deriving DecidableEq

/-- The classification step of `fetchStockData` for one matched pair: starts
from `status = 'watch'` and `distancePercent = null`; when `target` is truthy
(non-null and nonzero) computes `distancePercent` and possibly `buy`/`near`;
finally `changesPercentage < -5` overrides to `alert`. -/
def classify (watchItem : WatchlistStock) (quote : RawQuote) : StockData :=
  let price := quote.price
  let target := watchItem.targetEntry
  let sd : MStatus × Option ℚ :=
    match target with
    | some t =>
        if t = 0 then (MStatus.watch, none)
        else
          let distancePercent := ((price - t) / t) * 100
          if price ≤ t then (MStatus.buy, some distancePercent)
          else if distancePercent ≤ 5 then (MStatus.near, some distancePercent)
          else (MStatus.watch, some distancePercent)
    | none => (MStatus.watch, none)
  let status := if quote.changesPercentage < -5 then MStatus.alert else sd.1
  { toWatchlistStock := watchItem
    price := price
    change := quote.change
    changePercent := quote.changesPercentage
    status := status
    distancePercent := sd.2 }

/-- The `results` pipeline of `fetchStockData`: map each quote to the
classification against the watchlist entry found for its symbol, dropping
quotes with no matching entry (`if (!watchItem) return null` + `.filter`). -/
def results (watchlist : List WatchlistStock) (data : List RawQuote) : List StockData :=
  data.filterMap fun quote =>
    (watchlist.find? fun w => w.symbol == quote.symbol).map fun watchItem =>
      classify watchItem quote

/-- The comparator table `{ buy: 0, alert: 1, near: 2, watch: 3 }`. -/
def priority : MStatus → Nat
  | MStatus.buy => 0
  | MStatus.alert => 1
  | MStatus.near => 2
  | MStatus.watch => 3

/-- `results.sort((a, b) => priority[a.status] - priority[b.status])`. -/
def rank (stocks : List StockData) : List StockData :=
  sortByKey (fun s => priority s.status) stocks

/-- React state touched by one `fetchStockData` call: `stocks`, `loading`,
`error`, `lastUpdate` (the `Date` modelled as an abstract tick). -/
structure AppState where
  stocks : List StockData
  loading : Bool
  error : Option String
  lastUpdate : Option Nat
deriving DecidableEq

/-- Outcome of the awaited fetch as the `try` block observes it: the fetch
throws, `response.ok` is false, the JSON is not an array, or an array payload
(possibly empty) is parsed. -/
inductive FetchOutcome where
  | networkFailure
  | badStatus (httpStatus : Nat)
  | malformedPayload
  | payload (data : List RawQuote)
deriving DecidableEq

/-- Failure cases of a fetch cycle: any thrown path, including an empty array
(`data.length === 0` raises `No data received`). -/
def isFailed : FetchOutcome → Prop
  | FetchOutcome.payload data => data = []
  | _ => True

/-- One `fetchStockData` call as a state transition: early-return on an empty
watchlist; otherwise set `loading`, clear `error`, then either install the
ranked results and the timestamp, or catch and set the error message; finally
clear `loading`. -/
def fetchStockData (watchlist : List WatchlistStock) (st : AppState)
    (outcome : FetchOutcome) (now : Nat) : AppState :=
  if watchlist.length = 0 then st
  else
    let st1 : AppState := { st with loading := true, error := none }
    match outcome with
    | FetchOutcome.payload data =>
        if data.length = 0 then
          { st1 with error := some "無法取得股價資料", loading := false }
        else
          { st1 with stocks := rank (results watchlist data),
                     lastUpdate := some now, loading := false }
    | _ => { st1 with error := some "無法取得股價資料", loading := false }

end Mimi

namespace Buddy

/-- Status union type of the hard-coded-list app: `'buy' | 'watch' | 'hold' | 'alert'`. -/
inductive SStatus where
  | buy
  | watch
  | hold
  | alert
deriving DecidableEq, Repr

/-- One element of the hard-coded `WATCHLIST`: `{ symbol, target }`. -/
structure WatchItem where
  symbol : String
  target : Option ℚ
deriving DecidableEq

/-- The compiled-in watchlist of the hard-coded-list app. -/
def WATCHLIST : List WatchItem :=
  [⟨"NVDA", some 169⟩, ⟨"AMD", some 246⟩, ⟨"IONQ", some 36⟩, ⟨"EOSE", some 13⟩,
   ⟨"KEYS", some 216⟩, ⟨"AVGO", none⟩, ⟨"MSFT", none⟩, ⟨"GOOG", none⟩,
   ⟨"TSLA", none⟩, ⟨"QLD", none⟩]

/-- Fields of one Yahoo quote object that the app reads. -/
structure RawQuote where
  symbol : String
  regularMarketPrice : ℚ
  regularMarketChange : ℚ
  regularMarketChangePercent : ℚ
deriving DecidableEq

/-- The `StockData` interface of the hard-coded-list app. -/
structure StockData where
  symbol : String
  price : ℚ
  change : ℚ
  changePercent : ℚ
  target : Option ℚ
  status : SStatus
deriving DecidableEq

/-- The mapping applied to each quote of `data.quoteResponse.result`: look the
symbol up in the watchlist (`watchItem?.target` gives `none` both for a
missing item and a null target), derive the status, and keep the quote even
when no watchlist item matches. -/
def classify (watchlist : List WatchItem) (quote : RawQuote) : StockData :=
  let watchItem := watchlist.find? fun w => w.symbol == quote.symbol
  let price := quote.regularMarketPrice
  let target := watchItem.bind fun w => w.target
  let statusT : SStatus :=
    match target with
    | some t =>
        if t = 0 then SStatus.hold
        else if price ≤ t then SStatus.buy
        else if price ≤ t * (1.05 : ℚ) then SStatus.watch
        else SStatus.hold
    | none => SStatus.hold
  let status := if quote.regularMarketChangePercent < -5 then SStatus.alert else statusT
  { symbol := quote.symbol
    price := price
    change := quote.regularMarketChange
    changePercent := quote.regularMarketChangePercent
    target := target
    status := status }

/-- The `results` pipeline: plain `map`, no filtering of unmatched symbols. -/
def results (watchlist : List WatchItem) (data : List RawQuote) : List StockData :=
  data.map (classify watchlist)

/-- The comparator table `{ buy: 0, alert: 1, watch: 2, hold: 3 }`. -/
def priority : SStatus → Nat
  | SStatus.buy => 0
  | SStatus.alert => 1
  | SStatus.watch => 2
  | SStatus.hold => 3

/-- `results.sort((a, b) => priority[a.status] - priority[b.status])`. -/
def rank (stocks : List StockData) : List StockData :=
  sortByKey (fun s => priority s.status) stocks

/-- React state touched by one `fetchStockData` call in the hard-coded-list
app: `stocks`, `loading`, `lastUpdate` — this component has no error state
and no error message anywhere. -/
structure AppState where
  stocks : List StockData
  loading : Bool
  lastUpdate : Option Nat
deriving DecidableEq

/-- Outcome of the awaited fetch as the `try` block observes it: the fetch or
the JSON parse throws, the body lacks the `quoteResponse.result` array (the
access throws and is caught), or that array is obtained — this app checks
neither `response.ok` nor emptiness, so any parsed array succeeds. -/
inductive FetchOutcome where
  | networkFailure
  | malformedPayload
  | payload (data : List RawQuote)
deriving DecidableEq

/-- Failure cases of a fetch cycle in the hard-coded-list app: exactly the
thrown paths. -/
def isFailed : FetchOutcome → Prop
  | FetchOutcome.payload _ => False
  | _ => True

/-- The synthetic placeholder list built in the catch block
(`WATCHLIST.map(w => ({...}))` with `status: 'hold'` and prices drawn from
`Math.random()`): the successive random draws are supplied as the oracle
stream `rnd`, three per entry in list order; `target: w.target ?? undefined`
maps both null and missing to `none`. -/
def mockStocks (rnd : Nat → ℚ) : List StockData :=
  List.zipWith (fun i w =>
    { symbol := w.symbol
      price := rnd (3 * i) * 300 + 50
      change := (rnd (3 * i + 1) - (0.5 : ℚ)) * 20
      changePercent := (rnd (3 * i + 2) - (0.5 : ℚ)) * 10
      target := w.target
      status := SStatus.hold }) (List.range WATCHLIST.length) WATCHLIST

/-- One `fetchStockData` call of the hard-coded-list app as a state
transition: set `loading`; on success install the ranked results and the
timestamp; on any thrown path the catch block replaces the stocks with the
synthetic placeholder list (the demo fallback) and there is no error message
to set; finally clear `loading`. -/
def fetchStockData (st : AppState) (outcome : FetchOutcome) (now : Nat)
    (rnd : Nat → ℚ) : AppState :=
  let st1 : AppState := { st with loading := true }
  match outcome with
  | FetchOutcome.payload data =>
      { st1 with stocks := rank (results WATCHLIST data),
                 lastUpdate := some now, loading := false }
  | _ => { st1 with stocks := mockStocks rnd, loading := false }

end Buddy

/-- Helper building a watchlist entry whose descriptive fields are blank. -/
def mkEntry (sym : String) (t : Option ℚ) : Mimi.WatchlistStock :=
  { symbol := sym, name := "", business := "", buyReason := "", targetEntry := t,
    entryNote := "", holdPeriod := "", exitStrategy := "", stopLoss := none,
    invalidIf := none, catalyst := none, source := "", priority := 1 }

/-- Helper building a raw FMP quote. -/
def mkQuote (sym : String) (p c cp : ℚ) : Mimi.RawQuote :=
  ⟨sym, p, c, cp⟩

/-- Membership in a stable insertion is membership in the inserted element or the list. -/
theorem mem_insertByKey {α : Type} (key : α → Nat) (x a : α) :
    ∀ l : List α, a ∈ insertByKey key x l ↔ a = x ∨ a ∈ l
  | [] => by simp [insertByKey]
  | y :: ys => by
      by_cases h : key x ≤ key y
      · simp [insertByKey, h]
      · simp only [insertByKey, if_neg h, List.mem_cons, mem_insertByKey key x a ys]
        tauto

/-- Stable insertion preserves sortedness by the key. -/
theorem pairwise_insertByKey {α : Type} (key : α → Nat) (x : α) (l : List α)
    (h : l.Pairwise fun a b => key a ≤ key b) :
    (insertByKey key x l).Pairwise fun a b => key a ≤ key b := by
  induction l with
  | nil => simp [insertByKey]
  | cons y ys ih =>
      rcases List.pairwise_cons.mp h with ⟨hy, hys⟩
      by_cases hxy : key x ≤ key y
      · simp only [insertByKey, if_pos hxy]
        refine List.pairwise_cons.mpr ⟨?_, h⟩
        intro b hb
        rcases List.mem_cons.mp hb with rfl | hb
        · exact hxy
        · exact le_trans hxy (hy b hb)
      · simp only [insertByKey, if_neg hxy]
        refine List.pairwise_cons.mpr ⟨?_, ih hys⟩
        intro b hb
        rcases (mem_insertByKey key x b ys).mp hb with rfl | hb
        · omega
        · exact hy b hb

/-- The stable key sort produces a list sorted by the key. -/
theorem sortByKey_pairwise {α : Type} (key : α → Nat) :
    ∀ l : List α, (sortByKey key l).Pairwise fun a b => key a ≤ key b
  | [] => List.Pairwise.nil
  | x :: xs => pairwise_insertByKey key x _ (sortByKey_pairwise key xs)

/-- Stable insertion is a permutation of consing. -/
theorem insertByKey_perm {α : Type} (key : α → Nat) (x : α) :
    ∀ l : List α, List.Perm (insertByKey key x l) (x :: l)
  | [] => List.Perm.refl _
  | y :: ys => by
      by_cases h : key x ≤ key y
      · simp [insertByKey, h]
      · simp only [insertByKey, if_neg h]
        exact ((insertByKey_perm key x ys).cons y).trans (List.Perm.swap x y ys)

/-- The stable key sort permutes its input. -/
theorem sortByKey_perm {α : Type} (key : α → Nat) :
    ∀ l : List α, List.Perm (sortByKey key l) l
  | [] => List.Perm.refl _
  | x :: xs => (insertByKey_perm key x _).trans ((sortByKey_perm key xs).cons x)

/-- Inserting an element of a different key leaves the key-class subsequence alone. -/
theorem filter_insertByKey_of_ne {α : Type} (key : α → Nat) (k : Nat) (x : α)
    (hx : key x ≠ k) :
    ∀ l : List α,
      (insertByKey key x l).filter (fun a => decide (key a = k)) =
        l.filter fun a => decide (key a = k)
  | [] => by simp [insertByKey, hx]
  | y :: ys => by
      by_cases h : key x ≤ key y
      · simp [insertByKey, h, hx]
      · simp only [insertByKey, if_neg h, List.filter_cons,
          filter_insertByKey_of_ne key k x hx ys]

/-- Inserting an element of key `k` into a key-sorted list puts it in front of
the key-`k` subsequence. -/
theorem filter_insertByKey_of_eq {α : Type} (key : α → Nat) (k : Nat) (x : α)
    (hx : key x = k) :
    ∀ l : List α, l.Pairwise (fun a b => key a ≤ key b) →
      (insertByKey key x l).filter (fun a => decide (key a = k)) =
        x :: l.filter fun a => decide (key a = k)
  | [], _ => by simp [insertByKey, hx]
  | y :: ys, h => by
      rcases List.pairwise_cons.mp h with ⟨hy, hys⟩
      by_cases hxy : key x ≤ key y
      · simp only [insertByKey]
        rw [if_pos hxy, List.filter_cons_of_pos (by simp [hx])]
      · have hyk : key y ≠ k := by omega
        simp only [insertByKey]
        rw [if_neg hxy, List.filter_cons_of_neg (by simp [hyk]),
          List.filter_cons_of_neg (by simp [hyk]),
          filter_insertByKey_of_eq key k x hx ys hys]

/-- The stable key sort preserves each key class as a subsequence. -/
theorem sortByKey_filter_key {α : Type} (key : α → Nat) (k : Nat) :
    ∀ l : List α,
      (sortByKey key l).filter (fun a => decide (key a = k)) =
        l.filter fun a => decide (key a = k)
  | [] => rfl
  | x :: xs => by
      by_cases hx : key x = k
      · rw [sortByKey, filter_insertByKey_of_eq key k x hx _ (sortByKey_pairwise key xs),
          sortByKey_filter_key key k xs, List.filter_cons_of_pos (by simp [hx])]
      · rw [sortByKey, filter_insertByKey_of_ne key k x hx _,
          sortByKey_filter_key key k xs, List.filter_cons_of_neg (by simp [hx])]

/-- C1 counterexample: with target 100, price 90 and a 10% daily drop, the
final status is `alert`, not `buy` — the alert rule overrides the target-buy
rule, so the claim as stated (price at or below a positive target always
yields `buy`) is false. -/
theorem target_buy_unconditional_cex :
    ¬ ∀ (w : Mimi.WatchlistStock) (q : Mimi.RawQuote) (t : ℚ),
        w.targetEntry = some t → 0 < t → q.price ≤ t →
        (Mimi.classify w q).status = Mimi.MStatus.buy := by
  intro h
  have h0 := h (mkEntry "NVDA" (some 100)) (mkQuote "NVDA" 90 (-10) (-10)) 100 rfl
    (by norm_num) (by norm_num [mkQuote])
  norm_num [Mimi.classify, mkEntry, mkQuote] at h0
  exact absurd h0 (by decide)

/-- C1 (amended): for every entry with target `T > 0` and every quote with
`price ≤ T` whose daily change does not trigger the alert override
(`changePercent ≥ -5`), both classifiers assign status `buy`. -/
theorem target_buy_of_no_alert :
    (∀ (w : Mimi.WatchlistStock) (q : Mimi.RawQuote) (t : ℚ),
        w.targetEntry = some t → 0 < t → q.price ≤ t → -5 ≤ q.changesPercentage →
        (Mimi.classify w q).status = Mimi.MStatus.buy) ∧
    (∀ (wl : List Buddy.WatchItem) (q : Buddy.RawQuote) (t : ℚ),
        ((wl.find? fun w => w.symbol == q.symbol).bind fun w => w.target) = some t →
        0 < t → q.regularMarketPrice ≤ t → -5 ≤ q.regularMarketChangePercent →
        (Buddy.classify wl q).status = Buddy.SStatus.buy) := by
  constructor
  · intro w q t ht h0 hp hc
    have hne : ¬ (t = 0) := ne_of_gt h0
    have hcc : ¬ (q.changesPercentage < -5) := not_lt.mpr hc
    simp [Mimi.classify, ht, hne, hp, hcc]
  · intro wl q t ht h0 hp hc
    have hne : ¬ (t = 0) := ne_of_gt h0
    have hcc : ¬ (q.regularMarketChangePercent < -5) := not_lt.mpr hc
    simp [Buddy.classify, ht, hne, hp, hcc]

/-- C1 witness: the spec's buy scenario (target 169, price 165, +1.2%) in both apps. -/
theorem target_buy_of_no_alert_wit :
    (Mimi.classify (mkEntry "NVDA" (some 169)) (mkQuote "NVDA" 165 2 (1.2))).status =
      Mimi.MStatus.buy ∧
    (Buddy.classify Buddy.WATCHLIST ⟨"NVDA", 165, 2, 1.2⟩).status = Buddy.SStatus.buy :=
  ⟨target_buy_of_no_alert.1 _ _ 169 rfl (by norm_num) (by norm_num [mkQuote])
     (by norm_num [mkQuote]),
   target_buy_of_no_alert.2 Buddy.WATCHLIST _ 169 (by rfl) (by norm_num) (by norm_num)
     (by norm_num)⟩

/-- C2: a daily change below -5 percent forces the final status to `alert` in
both apps, overriding whatever the target rules assigned, with or without a
target. -/
theorem alert_override :
    (∀ (w : Mimi.WatchlistStock) (q : Mimi.RawQuote), q.changesPercentage < -5 →
        (Mimi.classify w q).status = Mimi.MStatus.alert) ∧
    (∀ (wl : List Buddy.WatchItem) (q : Buddy.RawQuote),
        q.regularMarketChangePercent < -5 →
        (Buddy.classify wl q).status = Buddy.SStatus.alert) := by
  constructor
  · intro w q h
    simp [Mimi.classify, h]
  · intro wl q h
    simp [Buddy.classify, h]

/-- C2 witness: the spec's alert-overrides-near scenario (target 36, price 37, -7%). -/
theorem alert_override_wit :
    (Mimi.classify (mkEntry "IONQ" (some 36)) (mkQuote "IONQ" 37 (-3) (-7))).status =
      Mimi.MStatus.alert ∧
    (Buddy.classify Buddy.WATCHLIST ⟨"IONQ", 37, -3, -7⟩).status = Buddy.SStatus.alert :=
  ⟨alert_override.1 _ _ (by norm_num [mkQuote]),
   alert_override.2 Buddy.WATCHLIST _ (by norm_num)⟩

/-- C3: with target `T > 0`, `T < price`, distance within 5 percent above the
target, and no alert override, the watchlist-file app assigns `near` and the
hard-coded-list app its equivalent `watch` tier. -/
theorem near_band :
    (∀ (w : Mimi.WatchlistStock) (q : Mimi.RawQuote) (t : ℚ),
        w.targetEntry = some t → 0 < t → t < q.price →
        (q.price - t) / t * 100 ≤ 5 → -5 ≤ q.changesPercentage →
        (Mimi.classify w q).status = Mimi.MStatus.near) ∧
    (∀ (wl : List Buddy.WatchItem) (q : Buddy.RawQuote) (t : ℚ),
        ((wl.find? fun w => w.symbol == q.symbol).bind fun w => w.target) = some t →
        0 < t → t < q.regularMarketPrice →
        (q.regularMarketPrice - t) / t * 100 ≤ 5 → -5 ≤ q.regularMarketChangePercent →
        (Buddy.classify wl q).status = Buddy.SStatus.watch) := by
  constructor
  · intro w q t ht h0 hp hd hc
    have hne : ¬ (t = 0) := ne_of_gt h0
    have hpp : ¬ (q.price ≤ t) := not_le.mpr hp
    have hcc : ¬ (q.changesPercentage < -5) := not_lt.mpr hc
    simp [Mimi.classify, ht, hne, hpp, hcc, hd]
  · intro wl q t ht h0 hp hd hc
    have hne : ¬ (t = 0) := ne_of_gt h0
    have hpp : ¬ (q.regularMarketPrice ≤ t) := not_le.mpr hp
    have hcc : ¬ (q.regularMarketChangePercent < -5) := not_lt.mpr hc
    rw [div_mul_eq_mul_div, div_le_iff₀ h0] at hd
    have hband : q.regularMarketPrice ≤ t * (1.05 : ℚ) := by nlinarith
    simp [Buddy.classify, ht, hne, hpp, hcc, hband]

/-- C3 witness: the spec's near scenario (target 246, price 255, +0.5%). -/
theorem near_band_wit :
    (Mimi.classify (mkEntry "AMD" (some 246)) (mkQuote "AMD" 255 1 (0.5))).status =
      Mimi.MStatus.near ∧
    (Buddy.classify Buddy.WATCHLIST ⟨"AMD", 255, 1, 0.5⟩).status = Buddy.SStatus.watch :=
  ⟨near_band.1 _ _ 246 rfl (by norm_num) (by norm_num [mkQuote]) (by norm_num [mkQuote])
     (by norm_num [mkQuote]),
   near_band.2 Buddy.WATCHLIST _ 246 (by rfl) (by norm_num) (by norm_num) (by norm_num)
     (by norm_num)⟩

/-- C4: an entry with no target never yields `buy` or the near tier — the
status is the alert tier when the change is below -5 percent and otherwise
the default tier (`watch` in the watchlist-file app, `hold` in the
hard-coded-list app). -/
theorem no_target_default :
    (∀ (w : Mimi.WatchlistStock) (q : Mimi.RawQuote), w.targetEntry = none →
        (Mimi.classify w q).status =
          (if q.changesPercentage < -5 then Mimi.MStatus.alert else Mimi.MStatus.watch) ∧
        (Mimi.classify w q).status ≠ Mimi.MStatus.buy ∧
        (Mimi.classify w q).status ≠ Mimi.MStatus.near) ∧
    (∀ (wl : List Buddy.WatchItem) (q : Buddy.RawQuote),
        ((wl.find? fun w => w.symbol == q.symbol).bind fun w => w.target) = none →
        (Buddy.classify wl q).status =
          (if q.regularMarketChangePercent < -5 then Buddy.SStatus.alert
           else Buddy.SStatus.hold) ∧
        (Buddy.classify wl q).status ≠ Buddy.SStatus.buy ∧
        (Buddy.classify wl q).status ≠ Buddy.SStatus.watch) := by
  constructor
  · intro w q ht
    have hs : (Mimi.classify w q).status =
        (if q.changesPercentage < -5 then Mimi.MStatus.alert else Mimi.MStatus.watch) := by
      simp [Mimi.classify, ht]
    refine ⟨hs, ?_, ?_⟩ <;> rw [hs] <;>
      by_cases hc : q.changesPercentage < -5 <;> simp [hc]
  · intro wl q ht
    have hs : (Buddy.classify wl q).status =
        (if q.regularMarketChangePercent < -5 then Buddy.SStatus.alert
         else Buddy.SStatus.hold) := by
      simp [Buddy.classify, ht]
    refine ⟨hs, ?_, ?_⟩ <;> rw [hs] <;>
      by_cases hc : q.regularMarketChangePercent < -5 <;> simp [hc]

/-- C4 witness: the spec's no-target scenario (MSFT, price 420, +0.8%). -/
theorem no_target_default_wit :
    ((Mimi.classify (mkEntry "MSFT" none) (mkQuote "MSFT" 420 3 (0.8))).status =
      (if (mkQuote "MSFT" 420 3 (0.8)).changesPercentage < -5 then Mimi.MStatus.alert
       else Mimi.MStatus.watch) ∧
     (Mimi.classify (mkEntry "MSFT" none) (mkQuote "MSFT" 420 3 (0.8))).status ≠
       Mimi.MStatus.buy ∧
     (Mimi.classify (mkEntry "MSFT" none) (mkQuote "MSFT" 420 3 (0.8))).status ≠
       Mimi.MStatus.near) ∧
    ((Buddy.classify Buddy.WATCHLIST ⟨"MSFT", 420, 3, 0.8⟩).status =
      (if (Buddy.RawQuote.mk "MSFT" 420 3 0.8).regularMarketChangePercent < -5 then
        Buddy.SStatus.alert
       else Buddy.SStatus.hold) ∧
     (Buddy.classify Buddy.WATCHLIST ⟨"MSFT", 420, 3, 0.8⟩).status ≠ Buddy.SStatus.buy ∧
     (Buddy.classify Buddy.WATCHLIST ⟨"MSFT", 420, 3, 0.8⟩).status ≠ Buddy.SStatus.watch) :=
  ⟨no_target_default.1 (mkEntry "MSFT" none) (mkQuote "MSFT" 420 3 (0.8)) rfl,
   no_target_default.2 Buddy.WATCHLIST ⟨"MSFT", 420, 3, 0.8⟩ (by rfl)⟩

/-- C5 counterexample: with `targetEntry = 0` the code skips the target branch
and leaves `distancePercent` null, so the claim that every present target gets
`distancePercent = (price - target) / target * 100` is false at target 0. -/
theorem distance_zero_target_cex :
    ¬ ∀ (w : Mimi.WatchlistStock) (q : Mimi.RawQuote) (t : ℚ),
        w.targetEntry = some t →
        (Mimi.classify w q).distancePercent = some ((q.price - t) / t * 100) := by
  intro h
  have h0 := h (mkEntry "X" (some 0)) (mkQuote "X" 100 0 0) 0 rfl
  norm_num [Mimi.classify, mkEntry, mkQuote] at h0
  exact Option.noConfusion h0

/-- C5 (amended): a present nonzero target gets
`distancePercent = (price - target) / target * 100`; an absent or zero target
leaves `distancePercent` null. -/
theorem distance_formula :
    (∀ (w : Mimi.WatchlistStock) (q : Mimi.RawQuote) (t : ℚ),
        w.targetEntry = some t → t ≠ 0 →
        (Mimi.classify w q).distancePercent = some ((q.price - t) / t * 100)) ∧
    (∀ (w : Mimi.WatchlistStock) (q : Mimi.RawQuote),
        w.targetEntry = none ∨ w.targetEntry = some 0 →
        (Mimi.classify w q).distancePercent = none) := by
  constructor
  · intro w q t ht hne
    simp only [Mimi.classify, ht]
    split_ifs <;> simp_all
  · intro w q ht
    rcases ht with ht | ht <;> simp [Mimi.classify, ht]

/-- C5 witness: the spec's near scenario has distance `(255-246)/246*100`;
the no-target scenario has a null distance. -/
theorem distance_formula_wit :
    (Mimi.classify (mkEntry "AMD" (some 246)) (mkQuote "AMD" 255 1 (0.5))).distancePercent =
      some (((mkQuote "AMD" 255 1 (0.5)).price - 246) / 246 * 100) ∧
    (Mimi.classify (mkEntry "MSFT" none) (mkQuote "MSFT" 420 3 (0.8))).distancePercent = none :=
  ⟨distance_formula.1 _ _ 246 rfl (by norm_num),
   distance_formula.2 (mkEntry "MSFT" none) (mkQuote "MSFT" 420 3 (0.8)) (Or.inl rfl)⟩

/-- C6: the comparator tables are buy 0, alert 1, near/watch 2, watch/hold 3,
and the ranked output of either app is sorted by that priority — no entry
follows an entry of strictly larger priority number; the ranked output is a
permutation of the classified input. -/
theorem rank_priority_order :
    Mimi.priority Mimi.MStatus.buy = 0 ∧ Mimi.priority Mimi.MStatus.alert = 1 ∧
    Mimi.priority Mimi.MStatus.near = 2 ∧ Mimi.priority Mimi.MStatus.watch = 3 ∧
    Buddy.priority Buddy.SStatus.buy = 0 ∧ Buddy.priority Buddy.SStatus.alert = 1 ∧
    Buddy.priority Buddy.SStatus.watch = 2 ∧ Buddy.priority Buddy.SStatus.hold = 3 ∧
    (∀ l : List Mimi.StockData,
        List.Pairwise (fun a b => Mimi.priority a.status ≤ Mimi.priority b.status)
          (Mimi.rank l) ∧
        List.Perm (Mimi.rank l) l) ∧
    (∀ l : List Buddy.StockData,
        List.Pairwise (fun a b => Buddy.priority a.status ≤ Buddy.priority b.status)
          (Buddy.rank l) ∧
        List.Perm (Buddy.rank l) l) := by
  refine ⟨rfl, rfl, rfl, rfl, rfl, rfl, rfl, rfl, ?_, ?_⟩
  · exact fun l => ⟨sortByKey_pairwise _ l, sortByKey_perm _ l⟩
  · exact fun l => ⟨sortByKey_pairwise _ l, sortByKey_perm _ l⟩

/-- C7: ranking is stable and keyed only by status — for each status tier, the
subsequence of entries of that status in the ranked output is exactly their
subsequence in the input, in both apps. -/
theorem rank_stable :
    (∀ (l : List Mimi.StockData) (s : Mimi.MStatus),
        (Mimi.rank l).filter (fun a => decide (a.status = s)) =
          l.filter fun a => decide (a.status = s)) ∧
    (∀ (l : List Buddy.StockData) (s : Buddy.SStatus),
        (Buddy.rank l).filter (fun a => decide (a.status = s)) =
          l.filter fun a => decide (a.status = s)) := by
  constructor
  · intro l s
    have hinj : ∀ a : Mimi.StockData,
        (decide (Mimi.priority a.status = Mimi.priority s)) = decide (a.status = s) := by
      intro a
      rcases a with ⟨_, _, _, _, st, _⟩
      cases st <;> cases s <;> simp [Mimi.priority]
    have h1 : (Mimi.rank l).filter (fun a => decide (Mimi.priority a.status = Mimi.priority s)) =
        (Mimi.rank l).filter (fun a => decide (a.status = s)) :=
      List.filter_congr fun a _ => hinj a
    have h2 : l.filter (fun a => decide (Mimi.priority a.status = Mimi.priority s)) =
        l.filter (fun a => decide (a.status = s)) :=
      List.filter_congr fun a _ => hinj a
    rw [← h1, ← h2, Mimi.rank]
    exact sortByKey_filter_key _ _ l
  · intro l s
    have hinj : ∀ a : Buddy.StockData,
        (decide (Buddy.priority a.status = Buddy.priority s)) = decide (a.status = s) := by
      intro a
      rcases a with ⟨_, _, _, _, _, st⟩
      cases st <;> cases s <;> simp [Buddy.priority]
    have h1 : (Buddy.rank l).filter (fun a => decide (Buddy.priority a.status = Buddy.priority s)) =
        (Buddy.rank l).filter (fun a => decide (a.status = s)) :=
      List.filter_congr fun a _ => hinj a
    have h2 : l.filter (fun a => decide (Buddy.priority a.status = Buddy.priority s)) =
        l.filter (fun a => decide (a.status = s)) :=
      List.filter_congr fun a _ => hinj a
    rw [← h1, ← h2, Buddy.rank]
    exact sortByKey_filter_key _ _ l

/-- C8 counterexample: the hard-coded-list app maps every quote of the
response without filtering, so a quote for a symbol outside the watchlist
("ZZZ") survives into the classified result set — the claim that such quotes
are discarded is false for that app. -/
theorem results_origin_cex :
    ¬ ∀ (data : List Buddy.RawQuote) (r : Buddy.StockData),
        r ∈ Buddy.results Buddy.WATCHLIST data →
        r.symbol ∈ Buddy.WATCHLIST.map Buddy.WatchItem.symbol := by
  intro h
  have h0 := h [⟨"ZZZ", 10, 0, 0⟩] (Buddy.classify Buddy.WATCHLIST ⟨"ZZZ", 10, 0, 0⟩)
    (by simp [Buddy.results])
  have hz : (Buddy.classify Buddy.WATCHLIST ⟨"ZZZ", 10, 0, 0⟩).symbol = "ZZZ" := by rfl
  rw [hz] at h0
  revert h0
  decide

/-- C8 (amended): in the watchlist-file app the invariant holds — every
classified result arises from a watchlist entry and a quote with the same
symbol, so unmatched quotes are discarded and entries without a quote are
dropped; the hard-coded-list app instead keeps unmatched quotes (see the
counterexample). -/
theorem results_origin :
    ∀ (watchlist : List Mimi.WatchlistStock) (data : List Mimi.RawQuote)
      (r : Mimi.StockData), r ∈ Mimi.results watchlist data →
      ∃ w ∈ watchlist, ∃ q ∈ data,
        w.symbol = q.symbol ∧ r = Mimi.classify w q ∧ r.symbol = w.symbol := by
  intro watchlist data r hr
  rcases List.mem_filterMap.mp hr with ⟨q, hq, hfq⟩
  rcases Option.map_eq_some'.mp hfq with ⟨w, hfind, hcl⟩
  refine ⟨w, List.mem_of_find?_eq_some hfind, q, hq, ?_, ?_, ?_⟩
  · have hp := List.find?_some hfind
    simp only [beq_iff_eq] at hp
    exact hp
  · exact hcl.symm
  · rw [← hcl]
    rfl

/-- C8 witness: a one-entry watchlist and its matching quote. -/
theorem results_origin_wit :
    ∃ w ∈ [mkEntry "NVDA" (some 169)], ∃ q ∈ [mkQuote "NVDA" 165 2 (1.2)],
      w.symbol = q.symbol ∧
      Mimi.classify (mkEntry "NVDA" (some 169)) (mkQuote "NVDA" 165 2 (1.2)) =
        Mimi.classify w q ∧
      (Mimi.classify (mkEntry "NVDA" (some 169)) (mkQuote "NVDA" 165 2 (1.2))).symbol =
        w.symbol :=
  results_origin [mkEntry "NVDA" (some 169)] [mkQuote "NVDA" 165 2 (1.2)]
    (Mimi.classify (mkEntry "NVDA" (some 169)) (mkQuote "NVDA" 165 2 (1.2)))
    (by simp [Mimi.results, mkEntry, mkQuote])

/-- C9 counterexample: in the hard-coded-list app the catch block replaces
the previous ranked list with synthetic placeholder data (and the component
has no error state or error message at all), so the claim that a failed cycle
leaves the previous result list unchanged is false there: from a previous
empty list, a network failure yields the ten placeholder entries. -/
theorem fetch_failure_unchanged_cex :
    ¬ ∀ (st : Buddy.AppState) (outcome : Buddy.FetchOutcome) (now : Nat)
        (rnd : Nat → ℚ),
        Buddy.isFailed outcome →
        (Buddy.fetchStockData st outcome now rnd).stocks = st.stocks := by
  intro h
  have h0 := h ⟨[], false, none⟩ Buddy.FetchOutcome.networkFailure 0
    (fun _ => (1 : ℚ) / 2) trivial
  have hlen : ((Buddy.fetchStockData ⟨[], false, none⟩
      Buddy.FetchOutcome.networkFailure 0 (fun _ => (1 : ℚ) / 2)).stocks).length = 10 := by
    rfl
  rw [h0] at hlen
  simp at hlen

/-- C9 (amended): on a failed fetch cycle (network error, non-ok response,
non-array payload, or empty array) the watchlist-file app keeps the previous
ranked stock list unchanged, sets the user-visible error message, and clears
the loading flag; the hard-coded-list app instead substitutes the synthetic
placeholder list for the previous results and clears loading — it has no
error state or message to set (see the counterexample). -/
theorem fetch_failure_state :
    (∀ (watchlist : List Mimi.WatchlistStock) (st : Mimi.AppState)
        (outcome : Mimi.FetchOutcome) (now : Nat),
        watchlist ≠ [] → Mimi.isFailed outcome →
        (Mimi.fetchStockData watchlist st outcome now).stocks = st.stocks ∧
        (Mimi.fetchStockData watchlist st outcome now).error = some "無法取得股價資料" ∧
        (Mimi.fetchStockData watchlist st outcome now).loading = false) ∧
    (∀ (st : Buddy.AppState) (outcome : Buddy.FetchOutcome) (now : Nat)
        (rnd : Nat → ℚ),
        Buddy.isFailed outcome →
        (Buddy.fetchStockData st outcome now rnd).stocks = Buddy.mockStocks rnd ∧
        (Buddy.fetchStockData st outcome now rnd).loading = false) := by
  constructor
  · intro watchlist st outcome now hw hf
    have hlen : ¬ (watchlist.length = 0) := by
      simpa [List.length_eq_zero] using hw
    cases outcome with
    | payload data =>
        have hd : data = [] := hf
        subst hd
        simp [Mimi.fetchStockData, hlen]
    | networkFailure => simp [Mimi.fetchStockData, hlen]
    | badStatus s => simp [Mimi.fetchStockData, hlen]
    | malformedPayload => simp [Mimi.fetchStockData, hlen]
  · intro st outcome now rnd hf
    cases outcome with
    | payload data => exact False.elim hf
    | networkFailure => exact ⟨rfl, rfl⟩
    | malformedPayload => exact ⟨rfl, rfl⟩

/-- C9 witness: a network failure, with a one-entry watchlist in the
watchlist-file app and a constant random oracle in the hard-coded-list app. -/
theorem fetch_failure_state_wit :
    ((Mimi.fetchStockData [mkEntry "NVDA" (some 169)] ⟨[], false, none, none⟩
        Mimi.FetchOutcome.networkFailure 0).stocks = [] ∧
     (Mimi.fetchStockData [mkEntry "NVDA" (some 169)] ⟨[], false, none, none⟩
        Mimi.FetchOutcome.networkFailure 0).error = some "無法取得股價資料" ∧
     (Mimi.fetchStockData [mkEntry "NVDA" (some 169)] ⟨[], false, none, none⟩
        Mimi.FetchOutcome.networkFailure 0).loading = false) ∧
    ((Buddy.fetchStockData ⟨[], false, none⟩ Buddy.FetchOutcome.networkFailure 0
        (fun _ => (1 : ℚ) / 2)).stocks = Buddy.mockStocks (fun _ => (1 : ℚ) / 2) ∧
     (Buddy.fetchStockData ⟨[], false, none⟩ Buddy.FetchOutcome.networkFailure 0
        (fun _ => (1 : ℚ) / 2)).loading = false) :=
  ⟨fetch_failure_state.1 [mkEntry "NVDA" (some 169)] ⟨[], false, none, none⟩
     Mimi.FetchOutcome.networkFailure 0 (by simp) trivial,
   fetch_failure_state.2 ⟨[], false, none⟩ Buddy.FetchOutcome.networkFailure 0
     (fun _ => (1 : ℚ) / 2) trivial⟩

/-- C10: a zero target is falsy, so the target branch — and with it the
division by the target — is skipped: the entry is classified exactly like a
target-less one (same status, null `distancePercent`), in both apps, and
nothing rejects it earlier. -/
theorem zero_target_safe :
    (∀ (w : Mimi.WatchlistStock) (q : Mimi.RawQuote), w.targetEntry = some 0 →
        (Mimi.classify w q).status = (Mimi.classify { w with targetEntry := none } q).status ∧
        (Mimi.classify w q).distancePercent = none ∧
        (Mimi.classify { w with targetEntry := none } q).distancePercent = none) ∧
    (∀ (wl : List Buddy.WatchItem) (q : Buddy.RawQuote),
        ((wl.find? fun w => w.symbol == q.symbol).bind fun w => w.target) = some 0 →
        (Buddy.classify wl q).status =
          (if q.regularMarketChangePercent < -5 then Buddy.SStatus.alert
           else Buddy.SStatus.hold)) := by
  constructor
  · intro w q ht
    refine ⟨?_, ?_, ?_⟩ <;> simp [Mimi.classify, ht]
  · intro wl q ht
    simp [Buddy.classify, ht]

/-- C10 witness: an entry with target 0 and price 100. -/
theorem zero_target_safe_wit :
    ((Mimi.classify (mkEntry "X" (some 0)) (mkQuote "X" 100 0 0)).status =
        (Mimi.classify { mkEntry "X" (some 0) with targetEntry := none }
          (mkQuote "X" 100 0 0)).status ∧
     (Mimi.classify (mkEntry "X" (some 0)) (mkQuote "X" 100 0 0)).distancePercent = none ∧
     (Mimi.classify { mkEntry "X" (some 0) with targetEntry := none }
        (mkQuote "X" 100 0 0)).distancePercent = none) ∧
    (Buddy.classify [⟨"X", some 0⟩] ⟨"X", 100, 0, 0⟩).status =
      (if (Buddy.RawQuote.mk "X" 100 0 0).regularMarketChangePercent < -5 then
        Buddy.SStatus.alert
       else Buddy.SStatus.hold) :=
  ⟨zero_target_safe.1 (mkEntry "X" (some 0)) (mkQuote "X" 100 0 0) rfl,
   zero_target_safe.2 [⟨"X", some 0⟩] ⟨"X", 100, 0, 0⟩ (by rfl)⟩
